import Mathlib

/-!
Verification of the MindMate mood-analytics engine (`src/app.py`).

The engine ingests a newest-first chat log of
(timestamp, user_message, assistant_message, mood) rows and a journal log of
(date, entry) rows, and computes mood statistics.  The definitions below are a
shallow embedding of the Python functions:

* `last_n_days_moods`   — `last_n_days_moods` (app.py:186-200)
* `count_negative_days` — `count_negative_days` (app.py:202-208)
* `negative_streak`     — `negative_streak` (app.py:210-218)
* `positivity_score`    — `positivity_score` (app.py:220-231)
* `gentle_depression_check_and_prompt` — app.py:233-255
* `weekly_avg`          — Progress-tab weekly positivity (app.py:672-673)
* `bucket_series`       — Progress-tab mood-trend bucketing (app.py:729-749)

Python strings are Lean `String`s; nullable DB columns are `Option String`.
Python machine floats never arise: the scores 0.2 / 0.5 / 0.9 and their
averages are exact decimal fractions, embedded in `ℚ`.
-/

namespace MindMate

/-- One row of the `chats` table: `(timestamp, user_message, assistant_message,
mood)`, newest-first as returned by `get_chat_history` (app.py:90-96).  The
`mood` column may be NULL, hence `Option String`. -/
structure ChatRecord where
  timestamp : String
  user_message : String
  assistant_message : String
  mood : Option String
deriving DecidableEq, Repr

/-- One row of the `journals` table: `(date, entry)`, newest-first as returned
by `get_journal_history` (app.py:98-104). -/
structure JournalRecord where
  date : String
  entry : String
deriving DecidableEq, Repr

/-- `need` is a leading segment of `hay` (character lists). -/
def leadMatch : List Char → List Char → Bool
  | [], _ => true
  | _ :: _, [] => false
  | a :: as, b :: bs => (a == b) && leadMatch as bs

/-- `need` occurs contiguously somewhere in `hay`: Python's substring test
`need in hay` on strings, spelled out over character lists. -/
def hasSub (need : List Char) : List Char → Bool
  | [] => leadMatch need []
  | c :: t => leadMatch need (c :: t) || hasSub need t

/-- Python `k in m` for strings `k`, `m`. -/
def strContains (m k : String) : Bool :=
  hasSub k.data m.data

/-- Python `s.lower()` restricted to ASCII (every keyword and label the engine
compares is ASCII). -/
def lowerStr (s : String) : String :=
  ⟨s.data.map Char.toLower⟩

/-- `NEGATIVE_KEYWORDS` (app.py:184). -/
def NEGATIVE_KEYWORDS : List String :=
  ["sad", "anx", "depress", "tired", "low", "down", "worri", "panic"]

/-- The positive keyword list inlined in `positivity_score` (app.py:229). -/
def POSITIVE_KEYWORDS : List String :=
  ["happy", "joy", "good", "calm", "relax"]

/-- `any(k in mood for k in NEGATIVE_KEYWORDS)` (app.py:206, 214, 227). -/
def isNeg (mood : String) : Bool :=
  NEGATIVE_KEYWORDS.any (fun k => strContains mood k)

/-- `ts.split(' ')[0]` (app.py:193): the leading token of the timestamp up to
the first space — the whole string when it has no space, `""` when empty. -/
def dateOf (ts : String) : String :=
  ⟨ts.data.takeWhile (fun c => !(c == ' '))⟩

/-- `(mood or '').lower()` (app.py:197): NULL becomes `""`, then lowercase. -/
def moodLowered (mood : Option String) : String :=
  lowerStr (mood.getD "")

/-- Loop body of `last_n_days_moods` (app.py:191-199).  `seen` is the
`seen_dates` set (membership is all the code uses, so a list is faithful);
`cnt` is `len(moods)` so far.  The `if len(moods) >= n: break` test runs after
the append, exactly as in the source. -/
def lastNDaysAux (n : Nat) : List ChatRecord → List String → Nat → List (String × String)
  | [], _, _ => []
  | r :: rest, seen, cnt =>
    let date := dateOf r.timestamp
    if date ∈ seen then
      lastNDaysAux n rest seen cnt
    else if n ≤ cnt + 1 then
      [(date, moodLowered r.mood)]
    else
      (date, moodLowered r.mood) :: lastNDaysAux n rest (date :: seen) (cnt + 1)

/-- `last_n_days_moods(n)` (app.py:186-200) with the chat log (newest-first)
passed explicitly instead of read from the database. -/
def last_n_days_moods (n : Nat) (chats : List ChatRecord) : List (String × String) :=
  lastNDaysAux n chats [] 0

/-- `count_negative_days` (app.py:202-208): the accumulating loop, verbatim. -/
def count_negative_days (moods : List (String × String)) : Nat :=
  moods.foldl (fun c p => if isNeg p.2 then c + 1 else c) 0

/-- `negative_streak` (app.py:210-218): count leading negative samples, break
at the first non-negative one. -/
def negative_streak : List (String × String) → Nat
  | [] => 0
  | p :: rest => if isNeg p.2 then 1 + negative_streak rest else 0

/-- `positivity_score` (app.py:220-231).  `if not mood` is true for Python
`None` and for `""`, then negative keywords are checked before positive ones. -/
def positivity_score (mood : Option String) : ℚ :=
  let s := mood.getD ""
  if s = "" then 0.5
  else
    let m := lowerStr s
    if NEGATIVE_KEYWORDS.any (fun k => strContains m k) then 0.2
    else if POSITIVE_KEYWORDS.any (fun k => strContains m k) then 0.9
    else 0.5

/-- The key/value `settings` table contents, as `set_setting`/`get_setting`
(app.py:108-134) expose them to the engine. -/
def Store := List (String × String)

/-- `gentle_depression_check_and_prompt` (app.py:233-255) with the chat log and
the settings store passed explicitly.  The source reads the store only for
`user_profile` (message wording, app.py:241) and `voice_enabled` (audio,
app.py:245), neither of which affects the returned boolean, and it performs no
write at all — in particular it keeps no last-alert date — so the store is
returned unchanged. -/
def gentle_depression_check_and_prompt (store : Store) (chats : List ChatRecord) :
    Bool × Store :=
  let moods := last_n_days_moods 14 chats
  if moods.isEmpty then (false, store)
  else if 10 ≤ count_negative_days moods then (true, store)
  else (false, store)

/-- Weekly positivity of the Progress tab (app.py:672-673):
`mean(positivity_score(m) for _, m in moods)` when there are samples, the
neutral `0.5` otherwise. -/
def weekly_avg (moods : List (String × String)) : ℚ :=
  let scores := moods.map (fun p => positivity_score (some p.2))
  if scores.isEmpty then 0.5 else scores.sum / (scores.length : ℚ)

/-- The Python truthiness test `if umood:` composed with `umood.lower()`
(app.py:733-734 and 746-747): the key a record contributes to a mood counter,
`none` when the mood is NULL or empty. -/
def moodKey (r : ChatRecord) : Option String :=
  match r.mood with
  | none => none
  | some s => if s = "" then none else some (lowerStr s)

/-- `bucket_size = max(1, len(messages) // bins)` (app.py:739). -/
def bucket_size (bins : Nat) (messages : List ChatRecord) : Nat :=
  max 1 (messages.length / bins)

/-- The successive slices `messages[i:i+sz]` for `i in range(0, len(messages), sz)`
(app.py:742-743): Python's `range(0, n, sz)` visits the `⌈n / sz⌉` indices
`0, sz, 2·sz, …` below `n`, and each visit takes the slice of length at most
`sz` starting there.  (`bucket_size` is `max(1, …) ≥ 1` in the source and
Python's `range` rejects a zero step, so `sz = 0` cannot arise; this
definition then returns `[]`, an arbitrary total-function value.) -/
def chunks {α : Type _} (sz : Nat) (l : List α) : List (List α) :=
  (List.range' 0 ((l.length + sz - 1) / sz) sz).map (fun i => (l.drop i).take sz)

/-- `counts.get(m.lower(), 0)` for one window `part` (app.py:744-749): the
number of records in the window whose (truthy, lowercased) mood equals
`m.lower()`. -/
def windowCount (label : String) (part : List ChatRecord) : Nat :=
  part.countP (fun r => moodKey r == some (lowerStr label))

/-- `mood_counts[mood.lower()]` over the whole log (app.py:731-734): the
label's total case-insensitive occurrence count. -/
def totalMoodCount (label : String) (messages : List ChatRecord) : Nat :=
  messages.countP (fun r => moodKey r == some (lowerStr label))

/-- `unique_moods = list({m for _, _, _, m in messages if m})` (app.py:740):
the distinct truthy raw mood labels.  A Python set iterates in an unspecified
order; `List.dedup` fixes one deterministic order, and every claim below is
independent of the order of labels. -/
def unique_moods (messages : List ChatRecord) : List String :=
  (messages.filterMap (fun r =>
    match r.mood with
    | none => none
    | some s => if s = "" then none else some s)).dedup

/-- The `bucket_series` mapping of the Progress-tab trend chart
(app.py:737-749), with the source's hard-coded `bins = 6` generalized to a
parameter exactly as it appears in the arithmetic `max(1, len(messages) // bins)`.
The source fills the per-label series window by window; iterating per label
over the same windows (as here) appends the identical sequence. -/
def bucket_series (bins : Nat) (messages : List ChatRecord) : List (String × List Nat) :=
  (unique_moods messages).map (fun m =>
    (m, (chunks (bucket_size bins messages) messages).map (fun part => windowCount m part)))

/-- Modelled from the spec: the fixed positive-progress keyword set of
`journalImprovementEstimate` (spec §4); the repository's source contains no
journal-improvement computation. -/
def PROGRESS_KEYWORDS : List String :=
  ["resolved", "improved", "better", "less", "fixed", "solved", "helped",
   "reduced", "managed", "overcame"]

/-- Modelled from the spec: a journal entry "shows improvement" iff its text
case-insensitively contains one of the progress keywords (spec §4). -/
def showsImprovement (r : JournalRecord) : Bool :=
  PROGRESS_KEYWORDS.any (fun k => strContains (lowerStr r.entry) k)

/-- Modelled from the spec: `journalImprovementEstimate` (spec §4) — the
repository's source has no such function, so it is built from the spec's
words: take the most recent `windowSize` entries of the newest-first journal
log, and return `100 × (matching entries / window size)`, `0` on an empty
window. -/
def journalImprovementEstimate (journal : List JournalRecord) (windowSize : Nat) : ℚ :=
  let window := journal.take windowSize
  if window.isEmpty then 0
  else 100 * ((window.countP showsImprovement : ℚ) / (window.length : ℚ))

/-- Modelled from the spec: a syntactically valid `"YYYY-MM-DD"` date token
(spec §3, §7) — four digits, dash, two digits, dash, two digits.  The source
performs no such validation; this predicate only states which tokens the
spec's error-handling policy calls valid. -/
def validDateToken (s : String) : Bool :=
  match s.data with
  | [y1, y2, y3, y4, h1, m1, m2, h2, d1, d2] =>
    y1.isDigit && y2.isDigit && y3.isDigit && y4.isDigit &&
    (h1 == '-') && m1.isDigit && m2.isDigit && (h2 == '-') &&
    d1.isDigit && d2.isDigit
  | _ => false

/-- The claim's "label case-insensitively contains a negative keyword". -/
def isNegLabel (mood : String) : Bool :=
  NEGATIVE_KEYWORDS.any (fun k => strContains (lowerStr mood) k)

/-- The claim's "label case-insensitively contains a positive keyword". -/
def isPosLabel (mood : String) : Bool :=
  POSITIVE_KEYWORDS.any (fun k => strContains (lowerStr mood) k)

/-- A 14-day chat log with ten distinct negative days, newest-first. -/
def demoLog : List ChatRecord :=
  [⟨"2024-01-10 09:00:00", "u", "a", some "sad"⟩,
   ⟨"2024-01-09 09:00:00", "u", "a", some "sad"⟩,
   ⟨"2024-01-08 09:00:00", "u", "a", some "anxious"⟩,
   ⟨"2024-01-07 09:00:00", "u", "a", some "sad"⟩,
   ⟨"2024-01-06 09:00:00", "u", "a", some "tired"⟩,
   ⟨"2024-01-05 09:00:00", "u", "a", some "sad"⟩,
   ⟨"2024-01-04 09:00:00", "u", "a", some "down"⟩,
   ⟨"2024-01-03 09:00:00", "u", "a", some "sad"⟩,
   ⟨"2024-01-02 09:00:00", "u", "a", some "worried"⟩,
   ⟨"2024-01-01 09:00:00", "u", "a", some "sad"⟩]

/-- A seven-record chat log, every mood `"sad"`. -/
def log7 : List ChatRecord :=
  [⟨"2024-02-01 09:00:00", "u", "a", some "sad"⟩,
   ⟨"2024-02-01 10:00:00", "u", "a", some "sad"⟩,
   ⟨"2024-02-01 11:00:00", "u", "a", some "sad"⟩,
   ⟨"2024-02-02 09:00:00", "u", "a", some "sad"⟩,
   ⟨"2024-02-02 10:00:00", "u", "a", some "sad"⟩,
   ⟨"2024-02-03 09:00:00", "u", "a", some "sad"⟩,
   ⟨"2024-02-03 10:00:00", "u", "a", some "sad"⟩]

/-- Ten journal entries, newest-first, of which exactly three contain a
progress keyword ("BETTER", "improved", "resolved"). -/
def journal10 : List JournalRecord :=
  [⟨"2024-03-10", "I feel BETTER today"⟩,
   ⟨"2024-03-09", "a hard day"⟩,
   ⟨"2024-03-08", "my sleep improved a lot"⟩,
   ⟨"2024-03-07", "felt numb"⟩,
   ⟨"2024-03-06", "long walk in the park"⟩,
   ⟨"2024-03-05", "quiet evening"⟩,
   ⟨"2024-03-04", "the argument got resolved"⟩,
   ⟨"2024-03-03", "slow morning"⟩,
   ⟨"2024-03-02", "rainy day"⟩,
   ⟨"2024-03-01", "meh"⟩]

/-- A three-record chat log, newest-first, with two records on the same day. -/
def demoChats : List ChatRecord :=
  [⟨"2024-03-02 10:00:00", "u", "a", some "Sad"⟩,
   ⟨"2024-03-02 11:00:00", "u", "a", some "Happy"⟩,
   ⟨"2024-03-01 09:00:00", "u", "a", none⟩]

/-- The sample a single chat record would contribute if kept. -/
def sampleOf (r : ChatRecord) : String × String :=
  (dateOf r.timestamp, moodLowered r.mood)

/-! ### Helper lemmas -/

theorem foldl_count (l : List (String × String)) :
    ∀ c : Nat, l.foldl (fun c p => if isNeg p.2 then c + 1 else c) c
      = c + l.countP (fun p => isNeg p.2) := by
  induction l with
  | nil => intro c; simp
  | cons x xs ih =>
    intro c
    cases hx : isNeg x.2 <;>
      simp [List.foldl_cons, hx, ih, List.countP_cons] <;> omega

theorem count_negative_days_eq_countP (l : List (String × String)) :
    count_negative_days l = l.countP (fun p => isNeg p.2) := by
  simpa using foldl_count l 0

theorem negative_streak_eq_takeWhile (l : List (String × String)) :
    negative_streak l = (l.takeWhile (fun p => isNeg p.2)).length := by
  induction l with
  | nil => rfl
  | cons x xs ih =>
    cases hx : isNeg x.2 <;>
      simp [negative_streak, List.takeWhile_cons, hx, ih] <;> omega

theorem takeWhile_length_le_countP {α : Type _} (p : α → Bool) (l : List α) :
    (l.takeWhile p).length ≤ l.countP p := by
  induction l with
  | nil => simp
  | cons x xs ih =>
    cases hx : p x <;>
      simp [List.takeWhile_cons, hx, List.countP_cons, ih] <;> omega

theorem positivity_score_cases (mood : Option String) :
    positivity_score mood = 0.2 ∨ positivity_score mood = 0.5 ∨
      positivity_score mood = 0.9 := by
  simp only [positivity_score]
  split_ifs <;> simp

theorem positivity_score_nonneg (mood : Option String) :
    0 ≤ positivity_score mood := by
  rcases positivity_score_cases mood with h | h | h <;> rw [h] <;> norm_num

theorem positivity_score_le_one (mood : Option String) :
    positivity_score mood ≤ 1 := by
  rcases positivity_score_cases mood with h | h | h <;> rw [h] <;> norm_num

theorem scores_sum_nonneg (l : List (String × String)) :
    0 ≤ (l.map (fun p => positivity_score (some p.2))).sum := by
  apply List.sum_nonneg
  intro x hx
  rcases List.mem_map.mp hx with ⟨p, _, rfl⟩
  exact positivity_score_nonneg _

theorem scores_sum_le_length (l : List (String × String)) :
    (l.map (fun p => positivity_score (some p.2))).sum ≤ (l.length : ℚ) := by
  induction l with
  | nil => simp
  | cons x xs ih =>
    have hx := positivity_score_le_one (some x.2)
    simp only [List.map_cons, List.sum_cons, List.length_cons]
    push_cast
    linarith

theorem chunks_length {α : Type _} (sz : Nat) (l : List α) :
    (chunks sz l).length = (l.length + sz - 1) / sz := by
  simp [chunks]

theorem slices_flatten {α : Type _} (sz : Nat) (hsz : 0 < sz) :
    ∀ (k : Nat) (l : List α), l.length ≤ k * sz →
      ((List.range' 0 k sz).map (fun i => (l.drop i).take sz)).flatten = l := by
  intro k
  induction k with
  | zero =>
    intro l h
    have : l = [] := List.eq_nil_of_length_eq_zero (by omega)
    subst this
    simp
  | succ k ih =>
    intro l h
    rw [List.range'_succ]
    simp only [List.map_cons, List.flatten_cons, List.drop_zero, Nat.zero_add]
    have shift : List.range' sz k sz = (List.range' 0 k sz).map (fun x => sz + x) :=
      (List.map_add_range' sz 0 k sz).symm
    rw [shift, List.map_map]
    have eq2 : ((fun i => (l.drop i).take sz) ∘ fun x => sz + x)
        = (fun i => (((l.drop sz).drop i).take sz)) := by
      funext i
      simp [Function.comp, List.drop_drop]
    rw [eq2, ih (l.drop sz) (by
      have hks : (k + 1) * sz = k * sz + sz := by ring
      simp only [List.length_drop]
      omega)]
    exact List.take_append_drop sz l

theorem chunks_flatten {α : Type _} (sz : Nat) (hsz : 0 < sz) (l : List α) :
    (chunks sz l).flatten = l := by
  apply slices_flatten sz hsz
  have h1 := Nat.div_add_mod (l.length + sz - 1) sz
  have h2 := Nat.mod_lt (l.length + sz - 1) hsz
  have h3 : sz * ((l.length + sz - 1) / sz) = ((l.length + sz - 1) / sz) * sz :=
    Nat.mul_comm _ _
  omega

theorem chunks_countP {α : Type _} (sz : Nat) (hsz : 0 < sz) (pred : α → Bool)
    (l : List α) :
    ((chunks sz l).map (fun part => part.countP pred)).sum = l.countP pred := by
  conv_rhs => rw [← chunks_flatten sz hsz l]
  rw [List.countP_flatten]

theorem weekly_avg_ne_nil (s : List (String × String)) (h : s ≠ []) :
    weekly_avg s
      = (s.map (fun p => positivity_score (some p.2))).sum / (s.length : ℚ) := by
  simp only [weekly_avg]
  rw [if_neg (by simpa [List.isEmpty_iff] using h), List.length_map]

theorem lastNDaysAux_length (n : Nat) :
    ∀ (l : List ChatRecord) (seen : List String) (cnt : Nat), cnt < n →
      (lastNDaysAux n l seen cnt).length + cnt ≤ n := by
  intro l
  induction l with
  | nil => intro seen cnt h; simp [lastNDaysAux]; omega
  | cons r rest ih =>
    intro seen cnt h
    simp only [lastNDaysAux]
    by_cases hmem : dateOf r.timestamp ∈ seen
    · simpa [hmem] using ih seen cnt h
    · by_cases hbr : n ≤ cnt + 1
      · simp [hmem, hbr]; omega
      · have := ih (dateOf r.timestamp :: seen) (cnt + 1) (by omega)
        simp [hmem, hbr]
        omega

theorem lastNDaysAux_dates (n : Nat) :
    ∀ (l : List ChatRecord) (seen : List String) (cnt : Nat),
      (∀ d ∈ (lastNDaysAux n l seen cnt).map Prod.fst, d ∉ seen) ∧
        ((lastNDaysAux n l seen cnt).map Prod.fst).Nodup := by
  intro l
  induction l with
  | nil => intro seen cnt; simp [lastNDaysAux]
  | cons r rest ih =>
    intro seen cnt
    simp only [lastNDaysAux]
    by_cases hmem : dateOf r.timestamp ∈ seen
    · simpa [hmem] using ih seen cnt
    · by_cases hbr : n ≤ cnt + 1
      · simp [hmem, hbr]
      · obtain ⟨hseen, hnd⟩ := ih (dateOf r.timestamp :: seen) (cnt + 1)
        simp only [hmem, hbr, if_neg, if_false, List.map_cons, List.nodup_cons]
        refine ⟨?_, ?_, hnd⟩
        · intro d hd
          rcases List.mem_cons.mp hd with hd | hd
          · simpa [hd] using hmem
          · exact fun hds => (hseen d hd) (List.mem_cons_of_mem _ hds)
        · intro hcontra
          exact (hseen _ hcontra) (List.mem_cons_self _ _)

theorem lastNDaysAux_sublist (n : Nat) :
    ∀ (l : List ChatRecord) (seen : List String) (cnt : Nat),
      (lastNDaysAux n l seen cnt).Sublist (l.map sampleOf) := by
  intro l
  induction l with
  | nil => intro seen cnt; simp [lastNDaysAux]
  | cons r rest ih =>
    intro seen cnt
    simp only [lastNDaysAux, List.map_cons]
    by_cases hmem : dateOf r.timestamp ∈ seen
    · simp only [hmem, if_true]
      exact (ih seen cnt).cons _
    · by_cases hbr : n ≤ cnt + 1
      · simp only [hmem, hbr, if_neg, if_false, if_true]
        exact (List.nil_sublist _).cons₂ _
      · simp only [hmem, hbr, if_neg, if_false]
        exact (ih (dateOf r.timestamp :: seen) (cnt + 1)).cons₂ _

theorem find?_date_cons_ne (r : ChatRecord) (rest : List ChatRecord) (d : String)
    (h : dateOf r.timestamp ≠ d) :
    (r :: rest).find? (fun x => dateOf x.timestamp == d)
      = rest.find? (fun x => dateOf x.timestamp == d) := by
  apply List.find?_cons_of_neg
  simp [h]

theorem find?_date_cons_self (r : ChatRecord) (rest : List ChatRecord) (d : String)
    (h : dateOf r.timestamp = d) :
    (r :: rest).find? (fun x => dateOf x.timestamp == d) = some r := by
  apply List.find?_cons_of_pos
  simp [h]

theorem lastNDaysAux_find (n : Nat) :
    ∀ (l : List ChatRecord) (seen : List String) (cnt : Nat)
      (p : String × String), p ∈ lastNDaysAux n l seen cnt →
      p.1 ∉ seen ∧ ∃ r, l.find? (fun r => dateOf r.timestamp == p.1) = some r ∧
        p = sampleOf r := by
  intro l
  induction l with
  | nil => intro seen cnt p hp; simp [lastNDaysAux] at hp
  | cons r rest ih =>
    intro seen cnt p hp
    simp only [lastNDaysAux] at hp
    by_cases hmem : dateOf r.timestamp ∈ seen
    · rw [if_pos hmem] at hp
      obtain ⟨hnot, r', hfind, hform⟩ := ih seen cnt p hp
      have hne : dateOf r.timestamp ≠ p.1 := fun he => hnot (he ▸ hmem)
      exact ⟨hnot, r', by rw [find?_date_cons_ne r rest p.1 hne]; exact hfind, hform⟩
    · rw [if_neg hmem] at hp
      have head_case : p = (dateOf r.timestamp, moodLowered r.mood) →
          p.1 ∉ seen ∧ ∃ r', (r :: rest).find?
              (fun r => dateOf r.timestamp == p.1) = some r' ∧ p = sampleOf r' := by
        intro hpe
        refine ⟨by simpa [hpe] using hmem, r, ?_, by simp [hpe, sampleOf]⟩
        exact find?_date_cons_self r rest p.1 (by simp [hpe])
      by_cases hbr : n ≤ cnt + 1
      · rw [if_pos hbr] at hp
        exact head_case (by simpa using hp)
      · rw [if_neg hbr] at hp
        rcases List.mem_cons.mp hp with hpe | hptail
        · exact head_case hpe
        · obtain ⟨hnot, r', hfind, hform⟩ :=
            ih (dateOf r.timestamp :: seen) (cnt + 1) p hptail
          have hne1 : dateOf r.timestamp ≠ p.1 := by
            intro he; exact hnot (by simp [he])
          have hnseen : p.1 ∉ seen := fun hs => hnot (List.mem_cons_of_mem _ hs)
          refine ⟨hnseen, r', ?_, hform⟩
          rw [find?_date_cons_ne r rest p.1 hne1]
          exact hfind

/-! ### The claims -/

/-- Claim C5 (confirmed): `positivity_score` returns exactly 0.2 for every
label case-insensitively containing a negative keyword (negative takes
priority), exactly 0.9 for labels containing only a positive keyword, and
exactly 0.5 for the empty label or labels matching neither set. -/
theorem positivity_score_spec (mood : String) :
    (isNegLabel mood = true → positivity_score (some mood) = 0.2) ∧
    (isNegLabel mood = false → isPosLabel mood = true →
      positivity_score (some mood) = 0.9) ∧
    (isNegLabel mood = false → isPosLabel mood = false →
      positivity_score (some mood) = 0.5) ∧
    positivity_score (some "") = 0.5 := by
  have key : positivity_score (some mood)
      = (if isNegLabel mood then (0.2 : ℚ)
         else if isPosLabel mood then 0.9 else 0.5) := by
    by_cases h : mood = ""
    · subst h
      simp +decide [positivity_score]
    · simp [positivity_score, h, isNegLabel, isPosLabel]
  refine ⟨?_, ?_, ?_, by rfl⟩ <;> intro h1
  · rw [key, if_pos h1]
  · intro h2; rw [key, if_neg (by simp [h1]), if_pos h2]
  · intro h2; rw [key, if_neg (by simp [h1]), if_neg (by simp [h2])]

/-- Witness for C5: the three branches at concrete labels. -/
theorem positivity_score_spec_witness :
    positivity_score (some "SAD") = 0.2 ∧
    positivity_score (some "Happy") = 0.9 ∧
    positivity_score (some "meh") = 0.5 :=
  ⟨(positivity_score_spec "SAD").1 (by decide),
   (positivity_score_spec "Happy").2.1 (by decide) (by decide),
   (positivity_score_spec "meh").2.2.1 (by decide) (by decide)⟩

/-- Claim C6 (confirmed): for a newest-first chat log and positive `n`,
`last_n_days_moods` returns at most `n` samples with pairwise-distinct dates,
in an order that is a sub-selection of the log's own (newest-first) order, and
every emitted sample carries the date and the lowercased mood (empty when
missing) of the *first* record of the log bearing that date — the most recent
record of that calendar day. -/
theorem last_n_days_moods_spec (chats : List ChatRecord) (n : Nat) (hn : 0 < n) :
    (last_n_days_moods n chats).length ≤ n ∧
    ((last_n_days_moods n chats).map Prod.fst).Nodup ∧
    (last_n_days_moods n chats).Sublist (chats.map sampleOf) ∧
    ∀ p ∈ last_n_days_moods n chats,
      ∃ r, chats.find? (fun r => dateOf r.timestamp == p.1) = some r ∧
        p = (dateOf r.timestamp, moodLowered r.mood) := by
  refine ⟨?_, (lastNDaysAux_dates n chats [] 0).2,
    lastNDaysAux_sublist n chats [] 0, ?_⟩
  · have h := lastNDaysAux_length n chats [] 0 hn
    simp only [last_n_days_moods]
    omega
  · intro p hp
    obtain ⟨-, r, hfind, hform⟩ := lastNDaysAux_find n chats [] 0 p hp
    exact ⟨r, hfind, by simpa [sampleOf] using hform⟩

/-- Witness for C6 at a three-record log with a duplicated date and `n = 14`. -/
theorem last_n_days_moods_spec_witness :
    (0 : Nat) < 14 ∧
    ((last_n_days_moods 14 demoChats).length ≤ 14 ∧
     ((last_n_days_moods 14 demoChats).map Prod.fst).Nodup ∧
     (last_n_days_moods 14 demoChats).Sublist (demoChats.map sampleOf) ∧
     ∀ p ∈ last_n_days_moods 14 demoChats,
       ∃ r, demoChats.find? (fun r => dateOf r.timestamp == p.1) = some r ∧
         p = (dateOf r.timestamp, moodLowered r.mood)) :=
  ⟨by decide, last_n_days_moods_spec demoChats 14 (by decide)⟩

/-- Claim C7 (confirmed): `negative_streak` counts exactly the leading run of
negative samples (it is the length of the `takeWhile` prefix), while
`count_negative_days` counts negative samples anywhere in the window, and on
`[("d3","sad"),("d2","happy"),("d1","sad")]` they are 1 and 2 respectively. -/
theorem streak_vs_count_spec :
    (∀ s : List (String × String),
      negative_streak s = (s.takeWhile (fun p => isNeg p.2)).length ∧
        count_negative_days s = s.countP (fun p => isNeg p.2)) ∧
    negative_streak [("d3", "sad"), ("d2", "happy"), ("d1", "sad")] = 1 ∧
    count_negative_days [("d3", "sad"), ("d2", "happy"), ("d1", "sad")] = 2 := by
  refine ⟨fun s => ⟨negative_streak_eq_takeWhile s,
    count_negative_days_eq_countP s⟩, by decide, by decide⟩

/-- Claim C10 (confirmed): the leading negative streak never exceeds the total
negative-day count, which never exceeds the window size. -/
theorem streak_le_count_le_length (s : List (String × String)) :
    negative_streak s ≤ count_negative_days s ∧
      count_negative_days s ≤ s.length := by
  rw [negative_streak_eq_takeWhile, count_negative_days_eq_countP]
  exact ⟨takeWhile_length_le_countP _ s, List.countP_le_length _⟩

/-- Claim C8 (confirmed): `weekly_avg` lies in `[0, 1]`, equals the arithmetic
mean of the samples' positivity scores on a non-empty window, is exactly 0.5 on
the empty window, and equals 0.55 on `[("d1","happy"),("d2","sad")]`. -/
theorem weekly_avg_spec :
    (∀ s : List (String × String), 0 ≤ weekly_avg s ∧ weekly_avg s ≤ 1) ∧
    (∀ s : List (String × String), s ≠ [] →
      weekly_avg s
        = (s.map (fun p => positivity_score (some p.2))).sum / (s.length : ℚ)) ∧
    weekly_avg [] = 0.5 ∧
    weekly_avg [("d1", "happy"), ("d2", "sad")] = 0.55 := by
  refine ⟨?_, fun s h => weekly_avg_ne_nil s h, by norm_num [weekly_avg], ?_⟩
  · intro s
    by_cases h : s = []
    · subst h
      constructor <;> norm_num [weekly_avg]
    · have hlen : (0 : ℚ) < (s.length : ℚ) := by
        exact_mod_cast List.length_pos.mpr h
      rw [weekly_avg_ne_nil s h]
      exact ⟨div_nonneg (scores_sum_nonneg s) (le_of_lt hlen),
        (div_le_one hlen).mpr (scores_sum_le_length s)⟩
  · rw [weekly_avg_ne_nil _ (by decide)]
    simp +decide [positivity_score]
    norm_num

/-- Witness for C8: the mean form at a concrete non-empty window. -/
theorem weekly_avg_spec_witness :
    weekly_avg [("d1", "happy")]
      = (([("d1", "happy")] : List (String × String)).map
          (fun p => positivity_score (some p.2))).sum
        / ((([("d1", "happy")] : List (String × String)).length : ℚ)) :=
  weekly_avg_spec.2.1 [("d1", "happy")] (by decide)

/-- Claim C3 (confirmed, spec-modelled): `journalImprovementEstimate` is 0 on
an empty window, satisfies `estimate × windowLength = 100 × matches` on any
non-empty window (the `100 × matches / windowLength` formula), and returns
exactly 30 on ten entries of which exactly three contain a progress keyword. -/
theorem journal_improvement_spec :
    (∀ w : Nat, journalImprovementEstimate [] w = 0) ∧
    (∀ (j : List JournalRecord) (w : Nat), j.take w ≠ [] →
      journalImprovementEstimate j w * ((j.take w).length : ℚ)
        = 100 * ((j.take w).countP showsImprovement : ℚ)) ∧
    journalImprovementEstimate journal10 10 = 30 := by
  refine ⟨?_, ?_, ?_⟩
  · intro w
    simp [journalImprovementEstimate]
  · intro j w h
    have h0 : 0 < (j.take w).length := List.length_pos.mpr h
    have hlen : ((j.take w).length : ℚ) ≠ 0 := Nat.cast_ne_zero.mpr (by omega)
    simp only [journalImprovementEstimate]
    rw [if_neg (by simpa [List.isEmpty_iff] using h), mul_assoc,
      div_mul_cancel₀ _ hlen]
  · have hc : (journal10.take 10).countP showsImprovement = 3 := by decide
    have hl : (journal10.take 10).length = 10 := by decide
    simp only [journalImprovementEstimate]
    rw [if_neg (by decide), hc, hl]
    norm_num

/-- Witness for C3: the multiplicative mean form at the ten-entry journal. -/
theorem journal_improvement_spec_witness :
    journal10.take 10 ≠ [] ∧
    journalImprovementEstimate journal10 10 * ((journal10.take 10).length : ℚ)
      = 100 * ((journal10.take 10).countP showsImprovement : ℚ) :=
  ⟨by decide, journal_improvement_spec.2.1 journal10 10 (by decide)⟩

/-- Claim C1, counterexample: on a log with ten negative days the trigger
fires, and a second evaluation on the same calendar day — with the settings
store exactly as the first call left it — fires again.  The claim's same-day
debounce does not exist in the code: `gentle_depression_check_and_prompt`
never reads or writes a last-alert date. -/
theorem gentle_check_refires_same_day :
    (gentle_depression_check_and_prompt [] demoLog).1 = true ∧
    (gentle_depression_check_and_prompt
        ((gentle_depression_check_and_prompt [] demoLog).2) demoLog).1 = true := by
  decide

/-- Claim C1 (amended): the trigger returns `true` exactly when
`count_negative_days` over the last-14-day samples is at least 10 (the
empty-log guard is subsumed, since ten negative samples force a non-empty
window); it leaves the settings store unchanged — it keeps no last-alert
date — so re-evaluating on the same day with the store the first call left
behind returns the same decision: there is no same-day debounce. -/
theorem gentle_check_trigger_spec (store : Store) (chats : List ChatRecord) :
    ((gentle_depression_check_and_prompt store chats).1 = true ↔
      10 ≤ count_negative_days (last_n_days_moods 14 chats)) ∧
    (gentle_depression_check_and_prompt store chats).2 = store ∧
    gentle_depression_check_and_prompt
        ((gentle_depression_check_and_prompt store chats).2) chats
      = gentle_depression_check_and_prompt store chats := by
  by_cases he : (last_n_days_moods 14 chats).isEmpty
  · have hnil : last_n_days_moods 14 chats = [] := List.isEmpty_iff.mp he
    simp [gentle_depression_check_and_prompt, hnil, count_negative_days]
  · by_cases hc : 10 ≤ count_negative_days (last_n_days_moods 14 chats)
    · simp [gentle_depression_check_and_prompt, he, hc]
    · simp [gentle_depression_check_and_prompt, he, hc]

/-- Claim C2, counterexample: seven records with bucket count 6 give
`bucket_size = max(1, 7 // 6) = 1` and `range(0, 7, 1)` produces **seven**
windows, so the label's count sequence has 7 entries, not the claimed
`bucketCount = 6` with the remainder folded into the last window. -/
theorem bucket_series_seven_records :
    bucket_series 6 log7 = [("sad", [1, 1, 1, 1, 1, 1, 1])] ∧
    ((bucket_series 6 log7).map (fun p => p.2.length)) = [7] := by
  decide

/-- Claim C2 (amended): `bucket_series` slices the log into
`⌈totalRecords / max(1, totalRecords / bucketCount)⌉` contiguous windows of
size `max(1, totalRecords / bucketCount)` — remainder records form their own
shorter trailing window, so the window count can exceed `bucketCount` — and
each observed label's count sequence has exactly that many entries; the
windows concatenate back to the whole log, and an empty log yields an empty
mapping. -/
theorem bucket_series_window_spec (bins : Nat) (messages : List ChatRecord) :
    bucket_series bins ([] : List ChatRecord) = [] ∧
    (∀ p ∈ bucket_series bins messages,
      p.2.length
        = (messages.length + bucket_size bins messages - 1)
            / bucket_size bins messages) ∧
    (chunks (bucket_size bins messages) messages).flatten = messages := by
  refine ⟨?_, ?_, ?_⟩
  · simp [bucket_series, unique_moods]
  · intro p hp
    rcases List.mem_map.mp hp with ⟨m, _, rfl⟩
    simp [List.length_map, chunks_length]
  · exact chunks_flatten _ (lt_of_lt_of_le one_pos (le_max_left 1 _)) messages

/-- Witness for C2 at the seven-record log: the series has
`(7 + 1 - 1) / 1 = 7` entries. -/
theorem bucket_series_window_spec_witness :
    (("sad", [1, 1, 1, 1, 1, 1, 1]) ∈ bucket_series 6 log7) ∧
    (("sad", ([1, 1, 1, 1, 1, 1, 1] : List Nat)).2.length
      = (log7.length + bucket_size 6 log7 - 1) / bucket_size 6 log7) :=
  ⟨by decide,
   (bucket_series_window_spec 6 log7).2.1 ("sad", [1, 1, 1, 1, 1, 1, 1]) (by decide)⟩

/-- Claim C9 (confirmed): for every label of the `bucket_series` mapping, the
per-window counts sum to the label's total case-insensitive occurrence count
in the whole log — the windows partition the log, so no record is dropped or
counted twice. -/
theorem bucket_counts_conserved (bins : Nat) (messages : List ChatRecord)
    (p : String × List Nat) (hp : p ∈ bucket_series bins messages) :
    p.2.sum = totalMoodCount p.1 messages := by
  rcases List.mem_map.mp hp with ⟨m, _, rfl⟩
  have h := chunks_countP (bucket_size bins messages)
    (lt_of_lt_of_le one_pos (le_max_left 1 _))
    (fun r => moodKey r == some (lowerStr m)) messages
  simpa [windowCount, totalMoodCount] using h

/-- Witness for C9 at the seven-record log: `1·7 = 7` occurrences of "sad". -/
theorem bucket_counts_conserved_witness :
    (("sad", [1, 1, 1, 1, 1, 1, 1]) ∈ bucket_series 6 log7) ∧
    (("sad", ([1, 1, 1, 1, 1, 1, 1] : List Nat)).2.sum = totalMoodCount "sad" log7) :=
  ⟨by decide, bucket_counts_conserved 6 log7 ("sad", [1, 1, 1, 1, 1, 1, 1]) (by decide)⟩

/-- Claim C4, counterexample: a record whose timestamp has no valid date token
is *not* excluded — `last_n_days_moods` emits a sample keyed by the bogus
leading token. -/
theorem malformed_timestamp_not_dropped :
    last_n_days_moods 14 [⟨"not-a-date", "hi", "ok", some "sad"⟩]
      = [("not-a-date", "sad")] ∧
    validDateToken "not-a-date" = false := by
  decide

/-- Claim C4 (amended): the date portion is the leading token of the timestamp
before the first space, but no validation is performed and no record is ever
dropped: the newest record always contributes the head sample, whatever its
timestamp looks like, and the computation never fails. -/
theorem malformed_timestamp_spec (r : ChatRecord) (chats : List ChatRecord)
    (n : Nat) (hn : 0 < n) :
    (last_n_days_moods n (r :: chats)).head?
      = some (dateOf r.timestamp, moodLowered r.mood) := by
  simp only [last_n_days_moods, lastNDaysAux]
  rw [if_neg (List.not_mem_nil _)]
  by_cases hbr : n ≤ 0 + 1
  · rw [if_pos hbr]
    rfl
  · rw [if_neg hbr]
    rfl

/-- Witness for C4 at the malformed-timestamp record. -/
theorem malformed_timestamp_spec_witness :
    (0 : Nat) < 14 ∧
    (last_n_days_moods 14 [⟨"not-a-date", "hi", "ok", some "sad"⟩]).head?
      = some (dateOf "not-a-date", moodLowered (some "sad")) :=
  ⟨by decide,
   malformed_timestamp_spec ⟨"not-a-date", "hi", "ok", some "sad"⟩ [] 14 (by decide)⟩

end MindMate
